import Mathlib

/-!
Shallow embedding of the spike-prime-git browser extension, covering the
capture interceptor (src/content/spike-interceptor.js), the auth/token
manager (src/background/github-auth.js) and the GitHub API layer
(src/background/github-api.js).  Asynchronous platform calls (fetch,
chrome.storage, chrome.identity) are modelled by explicit state passing
and oracle parameters for the responses; times are integer milliseconds.
-/

/-- JavaScript truthiness of an optional string: `null`/`undefined` and the
empty string are falsy. -/
def jsTruthy : Option String → Bool
  | none => false
  | some s => s ≠ ""

/-- ASCII lower-casing, character by character (the strings the extension
handles are ASCII). Models `String.prototype.toLowerCase`. -/
def jsToLower (s : String) : String := ⟨s.data.map Char.toLower⟩

/-- Whitespace trimming at both ends; models `String.prototype.trim`. -/
def jsTrim (s : String) : String :=
  ⟨((s.data.dropWhile Char.isWhitespace).reverse.dropWhile Char.isWhitespace).reverse⟩

/-- Models `String.prototype.startsWith`. -/
def jsStartsWith (s pre : String) : Bool := pre.data.isPrefixOf s.data

/-- Models `String.prototype.endsWith`. -/
def jsEndsWith (s tail : String) : Bool := tail.data.reverse.isPrefixOf s.data.reverse

/-- Models `String.prototype.substring(n)`. -/
def jsDrop (s : String) (n : Nat) : String := ⟨s.data.drop n⟩

/-- Models `str.replace(/...$/, '')` suffix removal of `n` characters. -/
def jsDropRight (s : String) (n : Nat) : String := ⟨s.data.take (s.data.length - n)⟩

/-- Auxiliary for `jsSplitChar`, accumulating the current segment
reversed. -/
def splitCharAux (sep : Char) : List Char → List Char → List String
  | [], acc => [⟨acc.reverse⟩]
  | c :: rest, acc =>
    if c = sep then (⟨acc.reverse⟩ : String) :: splitCharAux sep rest []
    else splitCharAux sep rest (c :: acc)

/-- Models `String.prototype.split` with a one-character separator. -/
def jsSplitChar (s : String) (sep : Char) : List String := splitCharAux sep s.data []

/-- Case-sensitive check that character list `pat` occurs contiguously
inside `hay` (used to model JavaScript `String.prototype.includes`). -/
def listContains (pat : List Char) : List Char → Bool
  | [] => pat.isEmpty
  | c :: rest => pat.isPrefixOf (c :: rest) || listContains pat rest

/-- Model of JavaScript `hay.includes(pat)`. -/
def strContains (hay pat : String) : Bool :=
  listContains pat.data hay.data

/-- Model of `hay.toLowerCase().includes(pat.toLowerCase())`. -/
def containsCI (hay pat : String) : Bool :=
  strContains (jsToLower hay) (jsToLower pat)

/-! ## Capture interceptor (src/content/spike-interceptor.js) -/

/-- The interceptor's mutable fields `this.capturedProject` (an
ArrayBuffer, modelled as a byte list) and `this.projectName`. -/
structure InterceptorState where
  capturedProject : Option (List Nat)
  projectName : Option String
deriving Repr, DecidableEq

/-- The page environment consulted by `extractProjectName`: the
`textContent`/`value` strings of the elements matched by the selector
list, in selector-priority order; the result of matching the location
pathname against the trailing-segment regex; and the date slice used by
the generated fallback name. -/
structure PageContext where
  domTexts : List String
  urlLastSeg : Option String
  dateStr : String
deriving Repr, DecidableEq

/-- The `skipWords` deny-list of spike-interceptor.js. -/
def skipWords : List String :=
  ["SPIKE", "LEGO", "Education", "Browser not supported", "Not supported",
   "Warning", "Error", "Save", "Download", "Export"]

/-- One candidate text passes when (after trimming) its length is strictly
between 0 and 100 and no deny-list word occurs in it case-insensitively. -/
def validCandidate (t : String) : Bool :=
  0 < (jsTrim t).length && (jsTrim t).length < 100 &&
    !(skipWords.any fun w => containsCI (jsTrim t) w)

/-- The selector scan loop of `extractProjectName`: first passing
candidate wins, returned trimmed. -/
def scanDomName : List String → Option String
  | [] => none
  | t :: rest => if validCandidate t then some (jsTrim t) else scanDomName rest

/-- `extractProjectName`: keeps an already-set (truthy) name, otherwise
scans the DOM candidates, otherwise falls back to the last URL path
segment (unless it equals the host name) or a dated generated name. -/
def extractProjectName (current : Option String) (page : PageContext) : Option String :=
  if jsTruthy current then current
  else
    match scanDomName page.domTexts with
    | some nm => some nm
    | none =>
      match page.urlLastSeg with
      | some seg =>
        if seg ≠ "spike.legoeducation.com" then some seg
        else some ("SPIKE_Project_" ++ page.dateStr)
      | none => some ("SPIKE_Project_" ++ page.dateStr)

/-- `filename.replace(/\.(llsp3?|zip)$/i, '')`: strip one trailing
`.llsp3`, `.llsp` or `.zip` extension, case-insensitively. -/
def stripProjectExt (s : String) : String :=
  if jsEndsWith (jsToLower s) ".llsp3" then jsDropRight s 6
  else if jsEndsWith (jsToLower s) ".llsp" then jsDropRight s 5
  else if jsEndsWith (jsToLower s) ".zip" then jsDropRight s 4
  else s

/-- The `detail` payload of the `spikeprimegit:project-captured` event. -/
structure CaptureEvent where
  projectName : Option String
  size : Nat
  source : String
  content : List Nat
deriving Repr, DecidableEq

/-- `SpikeInterceptor.captureProject`: validate the two-byte ZIP magic,
store the buffer, resolve the display name (explicit filename wins, else
`extractProjectName`), dispatch the capture event and report success.
Returns the new state, the dispatched event (if any) and the boolean
return value. -/
def captureProject (st : InterceptorState) (buf : List Nat) (source : String)
    (filename : Option String) (page : PageContext) :
    InterceptorState × Option CaptureEvent × Bool :=
  let isZip := buf[0]? == some 0x50 && buf[1]? == some 0x4B
  if !isZip then (st, none, false)
  else
    let st1 : InterceptorState := { st with capturedProject := some buf }
    let newName : Option String :=
      if jsTruthy filename then some (stripProjectExt (filename.getD ""))
      else extractProjectName st1.projectName page
    let st2 : InterceptorState := { st1 with projectName := newName }
    (st2, some { projectName := newName, size := buf.length, source := source, content := buf }, true)

/-! ## Auth/token manager (src/background/github-auth.js) -/

/-- `github_tokens` record as written by `storeTokens`. -/
structure TokenRecord where
  accessToken : String
  refreshToken : Option String
  expiresAt : Int
  scope : String
deriving Repr, DecidableEq

/-- The token data returned by the token endpoint after the module's own
defaulting (`expires_in || 28800`, `refresh_token || null`). -/
structure TokenData where
  accessToken : String
  refreshToken : Option String
  expiresIn : Int
  scope : String
deriving Repr, DecidableEq

/-- The `chrome.storage.local` keys the auth module reads and writes. -/
structure AuthStore where
  tokens : Option TokenRecord
  authState : Option String
  clientId : Option String
  clientSecret : Option String
deriving Repr, DecidableEq

/-- `TOKEN_REFRESH_THRESHOLD = 5 * 60 * 1000` milliseconds. -/
def TOKEN_REFRESH_THRESHOLD : Int := 5 * 60 * 1000

/-- `storeTokens`: build the persisted record with an absolute expiry. -/
def mkTokenRecord (td : TokenData) (now : Int) : TokenRecord :=
  { accessToken := td.accessToken
    refreshToken := td.refreshToken
    expiresAt := now + td.expiresIn * 1000
    scope := td.scope }

/-- `getClientId`: stored client id if truthy, else the hard-coded
fallback constant (never falsy). -/
def getClientId (store : AuthStore) : String :=
  match store.clientId with
  | some c => if c ≠ "" then c else "SET_ME_UP"
  | none => "SET_ME_UP"

/-- `clearAuth`: remove the token record and the transient auth state. -/
def clearAuth (store : AuthStore) : AuthStore :=
  { store with tokens := none, authState := none }

/-- `isAuthenticated`: a token record exists and its time until expiry is
strictly above the refresh threshold. -/
def isAuthenticated (store : AuthStore) (now : Int) : Bool :=
  match store.tokens with
  | none => false
  | some t => TOKEN_REFRESH_THRESHOLD < t.expiresAt - now

/-- Outcome of the refresh token-endpoint fetch, as observed by
`refreshAccessToken` after JSON parsing: an HTTP-level failure, an
`error` field in the payload, or parsed token data. -/
inductive RefreshOutcome where
  | httpError (status : Nat) (text : String)
  | apiError (error : String) (desc : Option String)
  | success (td : TokenData)
deriving Repr, DecidableEq

/-- `refreshAccessToken`: requires a stored record with a truthy refresh
token, calls the token endpoint (oracle), and on success persists and
returns the new record; every failure path leaves storage untouched. -/
def refreshAccessToken (store : AuthStore) (now : Int) (oracle : RefreshOutcome) :
    Except String TokenRecord × AuthStore :=
  match store.tokens with
  | none => (.error "No refresh token available", store)
  | some t =>
    if !jsTruthy t.refreshToken then (.error "No refresh token available", store)
    else if getClientId store = "" then (.error "GitHub Client ID not configured", store)
    else
      match oracle with
      | .httpError status text =>
        (.error ("Token refresh failed: " ++ toString status ++ " " ++ text), store)
      | .apiError e desc =>
        (.error ("Token refresh error: " ++ (if jsTruthy desc then desc.getD "" else e)), store)
      | .success td =>
        let newRec := mkTokenRecord td now
        (.ok newRec, { store with tokens := some newRec })

/-- Result of one `getValidAccessToken` call: the returned value or
thrown error, the storage afterwards, and how many refresh attempts the
call made. -/
structure GVATResult where
  result : Except String String
  store : AuthStore
  refreshAttempts : Nat
deriving Repr

/-- `getValidAccessToken`: no record throws `Not authenticated`; a record
within the refresh threshold of expiry triggers exactly one refresh
(success returns the new access token, failure clears all auth state and
throws the re-authenticate error); otherwise the stored access token is
returned untouched. -/
def getValidAccessToken (store : AuthStore) (now : Int) (oracle : RefreshOutcome) :
    GVATResult :=
  match store.tokens with
  | none => ⟨.error "Not authenticated", store, 0⟩
  | some t =>
    if t.expiresAt - now ≤ TOKEN_REFRESH_THRESHOLD then
      match refreshAccessToken store now oracle with
      | (.ok newRec, store1) => ⟨.ok newRec.accessToken, store1, 1⟩
      | (.error _, store1) =>
        ⟨.error "Token expired and refresh failed. Please re-authenticate.", clearAuth store1, 1⟩
    else ⟨.ok t.accessToken, store, 0⟩

/-- Outcome of `chrome.identity.launchWebAuthFlow`: a rejected promise,
or a redirect URL carrying optional `code`, `state` and `error` query
parameters. -/
inductive FlowOutcome where
  | rejected (msg : String)
  | redirect (code : Option String) (returnedState : Option String) (error : Option String)
deriving Repr, DecidableEq

/-- `exchangeCodeForToken`: fails when the client secret is not
configured, otherwise reports the token-endpoint outcome (oracle), with
every in-flight failure wrapped in the `Failed to exchange token` text. -/
def exchangeCodeForToken (store : AuthStore) (exch : Except String TokenData) :
    Except String TokenData :=
  if getClientId store = "" || !jsTruthy store.clientSecret then
    .error "OAuth credentials not configured. Please set up Client ID and Secret in extension settings."
  else
    match exch with
    | .error m => .error ("Failed to exchange token: " ++ m)
    | .ok td => .ok td

/-- `authenticate`: persist a fresh CSRF nonce `s`, run the interactive
flow (oracle), check the `error`/`code`/`state` parameters in that
order, exchange the code, persist the resulting record, and delete the
transient nonce on every exit path (the `catch` block). -/
def authenticate (store : AuthStore) (s : String) (flow : FlowOutcome)
    (exch : Except String TokenData) (now : Int) :
    Except String TokenData × AuthStore :=
  if getClientId store = "" then
    (.error "No Client ID configured. Please configure OAuth credentials first.", store)
  else
    let st1 : AuthStore := { store with authState := some s }
    match flow with
    | .rejected msg => (.error msg, { st1 with authState := none })
    | .redirect code retState err =>
      if jsTruthy err then
        (.error ("GitHub authorization failed: " ++ err.getD ""), { st1 with authState := none })
      else if !jsTruthy code then
        (.error "No authorization code received", { st1 with authState := none })
      else if retState ≠ st1.authState then
        (.error "State mismatch - possible CSRF attack", { st1 with authState := none })
      else
        match exchangeCodeForToken st1 exch with
        | .error m => (.error m, { st1 with authState := none })
        | .ok td =>
          (.ok td, { st1 with tokens := some (mkTokenRecord td now), authState := none })

/-! ## GitHub API layer (src/background/github-api.js) -/

/-- The base64 alphabet used by `btoa`. -/
def base64Chars : List Char :=
  "ABCDEFGHIJKLMNOPQRSTUVWXYZabcdefghijklmnopqrstuvwxyz0123456789+/".data

/-- Index into the base64 alphabet. -/
def b64Char (n : Nat) : Char := base64Chars.getD n '='

/-- Core of `btoa` on a byte list: 3 bytes to 4 characters with `=`
padding. -/
def b64Encode : List Nat → List Char
  | a :: b :: c :: rest =>
    b64Char (a / 4) :: b64Char (a % 4 * 16 + b / 16) ::
      b64Char (b % 16 * 4 + c / 64) :: b64Char (c % 64) :: b64Encode rest
  | [a, b] => [b64Char (a / 4), b64Char (a % 4 * 16 + b / 16), b64Char (b % 16 * 4), '=']
  | [a] => [b64Char (a / 4), b64Char (a % 4 * 16), '=', '=']
  | [] => []

/-- `arrayBufferToBase64`: byte-wise `btoa` of the buffer. -/
def arrayBufferToBase64 (buf : List Nat) : String := ⟨b64Encode buf⟩

/-- The JSON body of the create-or-update-contents PUT request; `sha` is
present only when a truthy SHA was supplied. -/
structure PutBody where
  message : String
  content : String
  branch : String
  sha : Option String
deriving Repr, DecidableEq

/-- The part of a contents-API response `pushSpikeProject` consumes. -/
structure FileRec where
  sha : String
deriving Repr, DecidableEq

/-- `pushFile`: build the PUT endpoint and body; the `sha` field is added
to the body only when the given SHA is truthy. -/
def pushFile (owner repo branch path : String) (content : List Nat)
    (message : String) (sha : Option String) : String × PutBody :=
  ("/repos/" ++ owner ++ "/" ++ repo ++ "/contents/" ++ path,
   { message := message
     content := arrayBufferToBase64 content
     branch := branch
     sha := if jsTruthy sha then sha else none })

/-- Normalisation of the configured project path in `pushSpikeProject`:
trim, drop one leading slash, ensure a trailing slash when non-empty. -/
def normalizeProjectPath (raw : String) : String :=
  let p := jsTrim raw
  let p := if jsStartsWith p "/" then jsDrop p 1 else p
  if p ≠ "" && !jsEndsWith p "/" then p ++ "/" else p

/-- `projectName.replace(/[^a-zA-Z0-9-_]/g, '_')`. -/
def sanitizeName (s : String) : String :=
  ⟨s.data.map fun c =>
    if ('a' ≤ c && c ≤ 'z') || ('A' ≤ c && c ≤ 'Z') || ('0' ≤ c && c ≤ '9')
        || c = '-' || c = '_' then c else '_'⟩

/-- What `pushSpikeProject` sends and reports: the PUT endpoint, its
body, and the lower-cased action of the result object. -/
structure PushOutcome where
  endpoint : String
  body : PutBody
  action : String
deriving Repr, DecidableEq

/-- `pushSpikeProject`: validate installation access, split the
`owner/repo` string, compute the repository file path from the settings
prefix and the sanitised project name, look up the prior file (oracle
`existingFile`), choose Update/Add, and push with the prior file's SHA
when one exists.  The sync-history write is modelled separately by
`storeSyncHistory`. -/
def pushSpikeProject (repository branch projectName : String)
    (zipContent : List Nat) (commitMessage : String)
    (settingsPath : Option String) (timestamp : String)
    (hasAccess : Bool) (existingFile : Option FileRec) :
    Except String PushOutcome :=
  if !hasAccess then
    .error ("No access to repository \"" ++ repository ++ "\". Please add this repository to your SpikePrimeGit installation at https://github.com/apps/spikeprimegit")
  else
    let parts := jsSplitChar repository '/'
    let owner := (parts[0]?).getD ""
    let repo := (parts[1]?).getD ""
    if owner = "" || repo = "" then
      .error ("Invalid repository format \"" ++ repository ++ "\". Expected \"owner/repo\"")
    else
      let projectPath := normalizeProjectPath
        (if jsTruthy settingsPath then settingsPath.getD "" else "projects/")
      let filePath := projectPath ++ sanitizeName projectName ++ ".llsp3"
      let action := if existingFile.isSome then "Update" else "Add"
      let fullCommitMessage := action ++ " SPIKE project: " ++ projectName ++ "\n\n"
        ++ commitMessage
        ++ "\n\n---\nSynced from LEGO SPIKE Prime web editor\nTimestamp: " ++ timestamp
      let pushed := pushFile owner repo branch filePath zipContent fullCommitMessage
        (existingFile.map FileRec.sha)
      .ok { endpoint := pushed.1, body := pushed.2, action := jsToLower action }

/-- One record of the persisted sync-history log. -/
structure SyncRecord where
  timestamp : Int
  projectName : String
  repository : String
  branch : String
  filePath : String
  commitSha : String
  success : Bool
deriving Repr, DecidableEq

/-- `storeSyncHistory`: unshift the new record onto the stored list and
splice it down to the most recent 50. -/
def storeSyncHistory (record : SyncRecord) (history : List SyncRecord) :
    List SyncRecord :=
  (record :: history).take 50

/-- The sync-history log is ordered newest first: each record's timestamp
is at least the next one's. -/
def newestFirst (l : List SyncRecord) : Prop :=
  l.Chain' fun a b => b.timestamp ≤ a.timestamp

/-- The response fields `githubRequest` consults: status, the two
rate-limit headers, the parsed error body's `message`, and statusText. -/
structure HttpResponse where
  status : Nat
  rateLimitRemaining : Option String
  rateLimitReset : Option String
  bodyMessage : Option String
  statusText : String
deriving Repr, DecidableEq

/-- `response.ok`: status in the 200-299 range. -/
def respOk (r : HttpResponse) : Bool := 200 ≤ r.status && r.status ≤ 299

/-- JavaScript numeric coercion of the reset header (`resetTime * 1000`
with `resetTime` a decimal string, `null` coercing to 0). -/
def jsNumber (s : Option String) : Int :=
  match s with
  | none => 0
  | some v => (v.toInt?).getD 0

/-- The distinguished rate-limit message of `githubRequest`;
`fmt` models `Date.prototype.toLocaleString` on a millisecond epoch. -/
def rateLimitMessage (r : HttpResponse) (fmt : Int → String) : String :=
  "GitHub API rate limit exceeded. Resets at " ++ fmt (jsNumber r.rateLimitReset * 1000)

/-- The generic non-2xx message of `githubRequest`:
`errorData.message || statusText || HTTP <status>` plus the status,
method and endpoint. -/
def genericErrorMessage (r : HttpResponse) (endpoint : String)
    (method : Option String) : String :=
  let core :=
    if jsTruthy r.bodyMessage then r.bodyMessage.getD ""
    else if r.statusText ≠ "" then r.statusText
    else "HTTP " ++ toString r.status
  core ++ " (" ++ toString r.status ++ " on "
    ++ (if jsTruthy method then method.getD "" else "GET") ++ " " ++ endpoint ++ ")"

/-- The response handling of `githubRequest` (identical in
src/background/github-api.js and src/unnamed/part_004): a 403 with a
zero remaining-quota header throws the distinguished rate-limit message;
any other non-ok response throws the generic message; otherwise the call
succeeds. -/
def githubRequest (r : HttpResponse) (endpoint : String) (method : Option String)
    (fmt : Int → String) : Except String Unit :=
  if r.status == 403 && r.rateLimitRemaining == some "0" then
    .error (rateLimitMessage r fmt)
  else if !respOk r then
    .error (genericErrorMessage r endpoint method)
  else
    .ok ()

/-! ## Helper lemmas -/

lemma isPrefixOf_self (l : List Char) : l.isPrefixOf l = true := by
  induction l with
  | nil => rfl
  | cons c t ih => simp [List.isPrefixOf, ih]

lemma listContains_append (pat pre : List Char) :
    listContains pat (pre ++ pat) = true := by
  induction pre with
  | nil =>
    cases pat with
    | nil => rfl
    | cons c t => simp [listContains, isPrefixOf_self]
  | cons c rest ih => simp [listContains, ih]

lemma strContains_append (pre pat : String) :
    strContains (pre ++ pat) pat = true := by
  have : (pre ++ pat).data = pre.data ++ pat.data := String.data_append pre pat
  simp [strContains, this, listContains_append]

lemma pos_eq_one_le (n : Nat) : decide (0 < n) = decide (1 ≤ n) := by
  rw [decide_eq_decide]; omega

lemma lt100_eq_le99 (n : Nat) : decide (n < 100) = decide (n ≤ 99) := by
  rw [decide_eq_decide]; omega

/-- The claim-side reading of the DOM scan: among the trimmed candidate
texts, the first one of length 1 to 99 containing no deny-list word. -/
def specDomCandidate (texts : List String) : Option String :=
  ((texts.map jsTrim).filter fun t =>
    decide (1 ≤ t.length) && decide (t.length ≤ 99) &&
      !(skipWords.any fun w => containsCI t w)).head?

/-- The source's scan loop computes exactly the claim-side first valid
trimmed candidate. -/
lemma scanDomName_eq_spec (texts : List String) :
    scanDomName texts = specDomCandidate texts := by
  induction texts with
  | nil => rfl
  | cons t rest ih =>
    have hpred : (decide (1 ≤ (jsTrim t).length) && decide ((jsTrim t).length ≤ 99) &&
        !(skipWords.any fun w => containsCI (jsTrim t) w)) = validCandidate t := by
      unfold validCandidate
      rw [pos_eq_one_le, lt100_eq_le99]
    cases hvc : validCandidate t with
    | true =>
      simp [scanDomName, specDomCandidate, hvc, List.filter_cons, hpred]
    | false =>
      simp only [scanDomName, specDomCandidate, hvc, List.map_cons,
        List.filter_cons, hpred, if_false, Bool.false_eq_true, ite_false]
      simpa [specDomCandidate] using ih

/-- The name `captureProject` stores on a successful capture. -/
def resolvedName (st : InterceptorState) (filename : Option String)
    (page : PageContext) : Option String :=
  if jsTruthy filename then some (stripProjectExt (filename.getD ""))
  else extractProjectName st.projectName page

/-- Evaluation of `captureProject` when the magic check passes. -/
lemma captureProject_pos (st : InterceptorState) (buf : List Nat) (source : String)
    (filename : Option String) (page : PageContext)
    (hz : (buf[0]? == some 0x50 && buf[1]? == some 0x4B) = true) :
    captureProject st buf source filename page =
      ({ capturedProject := some buf, projectName := resolvedName st filename page },
       some { projectName := resolvedName st filename page, size := buf.length,
              source := source, content := buf },
       true) := by
  simp [captureProject, resolvedName, hz]

/-- Evaluation of `captureProject` when the magic check fails. -/
lemma captureProject_neg (st : InterceptorState) (buf : List Nat) (source : String)
    (filename : Option String) (page : PageContext)
    (hz : (buf[0]? == some 0x50 && buf[1]? == some 0x4B) = false) :
    captureProject st buf source filename page = (st, none, false) := by
  simp [captureProject, hz]

/-- A successful capture implies the magic check passed. -/
lemma captureProject_success_magic (st : InterceptorState) (buf : List Nat)
    (source : String) (filename : Option String) (page : PageContext)
    (st' : InterceptorState) (ev : Option CaptureEvent)
    (h : captureProject st buf source filename page = (st', ev, true)) :
    (buf[0]? == some 0x50 && buf[1]? == some 0x4B) = true := by
  cases hz : (buf[0]? == some 0x50 && buf[1]? == some 0x4B) with
  | true => rfl
  | false =>
    rw [captureProject_neg st buf source filename page hz] at h
    simp [Prod.ext_iff] at h

/-! ## C1 -/

/-- C1: for every buffer whose first two bytes are not `0x50 0x4B`
(including buffers shorter than two bytes), `captureProject` is a no-op:
it returns false, dispatches no event and leaves the state unchanged. -/
theorem C1_invalid_magic_noop (st : InterceptorState) (buf : List Nat)
    (source : String) (filename : Option String) (page : PageContext)
    (h : ¬(buf[0]? = some 0x50 ∧ buf[1]? = some 0x4B) ∨ buf.length < 2) :
    captureProject st buf source filename page = (st, none, false) := by
  have hmagic : ¬(buf[0]? = some 0x50 ∧ buf[1]? = some 0x4B) := by
    rcases h with h | h
    · exact h
    · rintro ⟨-, h1⟩
      have : buf[1]? = none := List.getElem?_eq_none (by omega)
      simp [this] at h1
  have hz : (buf[0]? == some 0x50 && buf[1]? == some 0x4B) = false := by
    rcases Bool.eq_false_or_eq_true (buf[0]? == some 0x50 && buf[1]? == some 0x4B)
      with h' | h'
    · rw [Bool.and_eq_true, beq_iff_eq, beq_iff_eq] at h'
      exact absurd h' hmagic
    · exact h'
  exact captureProject_neg st buf source filename page hz

/-- C1 witness: a one-byte buffer starting with `P` is rejected without
any state change or event. -/
theorem C1_witness :
    captureProject ⟨none, none⟩ [0x50] "BlobURL" none ⟨[], none, "2026-01-01"⟩
      = (⟨none, none⟩, none, false) :=
  C1_invalid_magic_noop ⟨none, none⟩ [0x50] "BlobURL" none ⟨[], none, "2026-01-01"⟩
    (Or.inr (by decide))

/-! ## C6 -/

/-- C6 counterexample: after a first successful capture resolves the name
`Robot` from the supplied filename, a second successful capture without a
filename keeps that previous name (the early return of
`extractProjectName`), even though the page offers the valid fresh
candidate `Fresh Name` — so part of the previous artifact survives into
the new one, refuting the claim as stated. -/
theorem C6_counterexample :
    captureProject
        (captureProject ⟨none, none⟩ [0x50, 0x4B, 0, 0] "FileSystemAPI-Write"
          (some "Robot.llsp3") ⟨["Fresh Name"], none, "2026-01-01"⟩).1
        [0x50, 0x4B, 9, 9] "BlobURL" none ⟨["Fresh Name"], none, "2026-01-01"⟩
      = (⟨some [0x50, 0x4B, 9, 9], some "Robot"⟩,
         some ⟨some "Robot", 4, "BlobURL", [0x50, 0x4B, 9, 9]⟩, true)
    ∧ scanDomName ["Fresh Name"] = some "Fresh Name" := by
  constructor
  · rfl
  · rfl

/-- C6 amended: after a successful capture exactly one buffer is retained
and it is the new one in its entirety; the resolved name is replaced when
the capture supplies a (truthy) filename, but when it does not and a name
is already held, the previous capture's name is retained. -/
theorem C6_artifact_replacement (st : InterceptorState) (buf : List Nat)
    (source : String) (filename : Option String) (page : PageContext)
    (st' : InterceptorState) (ev : Option CaptureEvent)
    (h : captureProject st buf source filename page = (st', ev, true)) :
    st'.capturedProject = some buf ∧
    (jsTruthy filename = true →
      st'.projectName = some (stripProjectExt (filename.getD ""))) ∧
    (jsTruthy filename = false → jsTruthy st.projectName = true →
      st'.projectName = st.projectName) := by
  have hz := captureProject_success_magic st buf source filename page st' ev h
  rw [captureProject_pos st buf source filename page hz] at h
  have hst : st' = { capturedProject := some buf,
                     projectName := resolvedName st filename page } :=
    (Prod.ext_iff.mp h).1.symm
  subst hst
  refine ⟨rfl, ?_, ?_⟩
  · intro hf
    simp [resolvedName, hf]
  · intro hf hprior
    simp [resolvedName, extractProjectName, hf, hprior]

/-- C6 witness: a second capture carrying the filename `Other.llsp`
replaces both the buffer and the name of a previous capture. -/
theorem C6_witness :
    (captureProject ⟨some [0x50, 0x4B, 0, 0], some "Robot"⟩ [0x50, 0x4B, 7]
        "Anchor-Download" (some "Other.llsp") ⟨[], none, "2026-01-01"⟩).1.capturedProject
      = some [0x50, 0x4B, 7] ∧
    (captureProject ⟨some [0x50, 0x4B, 0, 0], some "Robot"⟩ [0x50, 0x4B, 7]
        "Anchor-Download" (some "Other.llsp") ⟨[], none, "2026-01-01"⟩).1.projectName
      = some "Other" :=
  have happ := C6_artifact_replacement ⟨some [0x50, 0x4B, 0, 0], some "Robot"⟩
    [0x50, 0x4B, 7] "Anchor-Download" (some "Other.llsp") ⟨[], none, "2026-01-01"⟩
    (captureProject ⟨some [0x50, 0x4B, 0, 0], some "Robot"⟩ [0x50, 0x4B, 7]
      "Anchor-Download" (some "Other.llsp") ⟨[], none, "2026-01-01"⟩).1
    (captureProject ⟨some [0x50, 0x4B, 0, 0], some "Robot"⟩ [0x50, 0x4B, 7]
      "Anchor-Download" (some "Other.llsp") ⟨[], none, "2026-01-01"⟩).2.1 rfl
  ⟨happ.1, happ.2.1 rfl⟩

/-! ## C7 -/

/-- The scenario buffer: 4000 bytes starting with the archive magic. -/
def robotBuf : List Nat := 0x50 :: 0x4B :: List.replicate 3998 0

/-- The name a capture resolves, as the amended claim states it: explicit
filename (extension stripped), else a previously held name, else the
first valid DOM candidate, else the last URL path segment unless it
equals the host name, else the dated generated fallback. -/
def claimedNameResolution (filename prior : Option String) (page : PageContext) :
    Option String :=
  if jsTruthy filename then some (stripProjectExt (filename.getD ""))
  else if jsTruthy prior then prior
  else
    match specDomCandidate page.domTexts with
    | some nm => some nm
    | none =>
      match page.urlLastSeg with
      | some seg =>
        if seg ≠ "spike.legoeducation.com" then some seg
        else some ("SPIKE_Project_" ++ page.dateStr)
      | none => some ("SPIKE_Project_" ++ page.dateStr)

lemma resolvedName_eq_claimed (st : InterceptorState) (filename : Option String)
    (page : PageContext) :
    resolvedName st filename page = claimedNameResolution filename st.projectName page := by
  unfold resolvedName claimedNameResolution extractProjectName
  rw [scanDomName_eq_spec]

/-- C7 counterexample: the claimed strict priority order fails twice on
the code.  First, with no filename, no valid DOM candidate and the URL
path segment `spike.legoeducation.com` present, the code resolves the
dated fallback instead of the segment.  Second, with a previously held
name and a fresh valid DOM candidate available, the code keeps the
previous name instead of the DOM text. -/
theorem C7_counterexample :
    ((captureProject ⟨none, none⟩ [0x50, 0x4B] "BlobURL" none
        ⟨[], some "spike.legoeducation.com", "2026-01-01"⟩).1.projectName
      = some "SPIKE_Project_2026-01-01" ∧
     (captureProject ⟨none, none⟩ [0x50, 0x4B] "BlobURL" none
        ⟨[], some "spike.legoeducation.com", "2026-01-01"⟩).2.2 = true ∧
     "SPIKE_Project_2026-01-01" ≠ "spike.legoeducation.com") ∧
    ((captureProject ⟨none, some "Old"⟩ [0x50, 0x4B] "BlobURL" none
        ⟨["Fresh Name"], none, "2026-01-01"⟩).1.projectName = some "Old" ∧
     scanDomName ["Fresh Name"] = some "Fresh Name") := by
  exact ⟨⟨rfl, rfl, by decide⟩, ⟨rfl, rfl⟩⟩

/-- C7 amended: on every successful capture the stored name follows the
priority order explicit filename (extension stripped) > previously held
name > first DOM-scanned text of 1 to 99 trimmed characters free of
deny-list words > last URL path segment unless it equals
`spike.legoeducation.com` > dated generated fallback; and the concrete
scenario: a 4000-byte buffer starting `0x50 0x4B` with filename
`Robot.llsp3` captures successfully, resolves the name `Robot` and emits
size 4000. -/
theorem C7_name_priority :
    (∀ (st : InterceptorState) (buf : List Nat) (source : String)
       (filename : Option String) (page : PageContext)
       (st' : InterceptorState) (ev : Option CaptureEvent),
      captureProject st buf source filename page = (st', ev, true) →
      st'.projectName = claimedNameResolution filename st.projectName page) ∧
    ((captureProject ⟨none, none⟩ robotBuf "FileSystemAPI-Write" (some "Robot.llsp3")
        ⟨[], none, "2026-01-01"⟩).2.2 = true ∧
     (captureProject ⟨none, none⟩ robotBuf "FileSystemAPI-Write" (some "Robot.llsp3")
        ⟨[], none, "2026-01-01"⟩).1.projectName = some "Robot" ∧
     ((captureProject ⟨none, none⟩ robotBuf "FileSystemAPI-Write" (some "Robot.llsp3")
        ⟨[], none, "2026-01-01"⟩).2.1).map CaptureEvent.size = some 4000) := by
  constructor
  · intro st buf source filename page st' ev h
    have hz := captureProject_success_magic st buf source filename page st' ev h
    rw [captureProject_pos st buf source filename page hz] at h
    have hst : st' = { capturedProject := some buf,
                       projectName := resolvedName st filename page } :=
      (Prod.ext_iff.mp h).1.symm
    subst hst
    exact resolvedName_eq_claimed st filename page
  · have h0 : robotBuf[0]? = some 0x50 := by
      rw [robotBuf, List.getElem?_cons_zero]
    have h1 : robotBuf[1]? = some 0x4B := by
      rw [robotBuf, List.getElem?_cons_succ, List.getElem?_cons_zero]
    have hz : (robotBuf[0]? == some 0x50 && robotBuf[1]? == some 0x4B) = true := by
      rw [h0, h1]
      rfl
    rw [captureProject_pos ⟨none, none⟩ robotBuf "FileSystemAPI-Write"
      (some "Robot.llsp3") ⟨[], none, "2026-01-01"⟩ hz]
    refine ⟨rfl, rfl, ?_⟩
    show some robotBuf.length = some 4000
    rw [robotBuf, List.length_cons, List.length_cons, List.length_replicate]

/-- C7 witness: a fresh capture without a filename resolves its name
exactly as the amended priority order dictates on a page offering a
padded DOM candidate. -/
theorem C7_witness :
    (captureProject ⟨none, none⟩ [0x50, 0x4B] "BlobURL" none
        ⟨["  My Project  "], none, "2026-01-01"⟩).1.projectName
      = claimedNameResolution none none ⟨["  My Project  "], none, "2026-01-01"⟩ :=
  C7_name_priority.1 ⟨none, none⟩ [0x50, 0x4B] "BlobURL" none
    ⟨["  My Project  "], none, "2026-01-01"⟩
    (captureProject ⟨none, none⟩ [0x50, 0x4B] "BlobURL" none
      ⟨["  My Project  "], none, "2026-01-01"⟩).1
    (captureProject ⟨none, none⟩ [0x50, 0x4B] "BlobURL" none
      ⟨["  My Project  "], none, "2026-01-01"⟩).2.1 rfl

/-! ## C2 -/

/-- C2: `getValidAccessToken` fails with `Not authenticated` when no
record is stored; whenever the remaining lifetime is below the 5-minute
threshold it makes exactly one refresh attempt; and whenever the
remaining lifetime is above the threshold it returns the stored access
token with no refresh attempt and no state change. -/
theorem C2_token_accessor (store : AuthStore) (now : Int) (oracle : RefreshOutcome) :
    (store.tokens = none →
      getValidAccessToken store now oracle = ⟨.error "Not authenticated", store, 0⟩) ∧
    (∀ t : TokenRecord, store.tokens = some t →
      t.expiresAt - now < TOKEN_REFRESH_THRESHOLD →
      (getValidAccessToken store now oracle).refreshAttempts = 1) ∧
    (∀ t : TokenRecord, store.tokens = some t →
      TOKEN_REFRESH_THRESHOLD < t.expiresAt - now →
      getValidAccessToken store now oracle = ⟨.ok t.accessToken, store, 0⟩) := by
  refine ⟨?_, ?_, ?_⟩
  · intro h
    simp [getValidAccessToken, h]
  · intro t ht hlt
    simp only [getValidAccessToken, ht]
    rw [if_pos (le_of_lt hlt)]
    rcases refreshAccessToken store now oracle with ⟨res, s⟩
    cases res <;> rfl
  · intro t ht hgt
    simp only [getValidAccessToken, ht]
    rw [if_neg (not_le.mpr hgt)]

/-- C2 witness: a token far from expiry is returned as stored, without a
refresh attempt. -/
theorem C2_witness :
    getValidAccessToken
        ⟨some ⟨"tok", some "r", 1000000000, "repo"⟩, none, none, none⟩ 0
        (.httpError 401 "x")
      = ⟨.ok "tok", ⟨some ⟨"tok", some "r", 1000000000, "repo"⟩, none, none, none⟩, 0⟩ :=
  (C2_token_accessor ⟨some ⟨"tok", some "r", 1000000000, "repo"⟩, none, none, none⟩ 0
      (.httpError 401 "x")).2.2
    ⟨"tok", some "r", 1000000000, "repo"⟩ rfl (by decide)

/-! ## C3 -/

/-- C3: when the token is within the refresh threshold and the attempted
refresh fails (for any reason), `getValidAccessToken` clears all auth
state (token record and transient auth state), surfaces the
re-authenticate error, and makes no second refresh attempt. -/
theorem C3_refresh_failure_clears_auth (store : AuthStore) (now : Int)
    (oracle : RefreshOutcome) (t : TokenRecord) (e : String) (st1 : AuthStore)
    (ht : store.tokens = some t)
    (hexp : t.expiresAt - now ≤ TOKEN_REFRESH_THRESHOLD)
    (hfail : refreshAccessToken store now oracle = (.error e, st1)) :
    getValidAccessToken store now oracle =
      ⟨.error "Token expired and refresh failed. Please re-authenticate.",
       clearAuth st1, 1⟩ := by
  simp only [getValidAccessToken, ht]
  rw [if_pos hexp, hfail]

/-- C3 witness: an expired record whose refresh is rejected by the token
endpoint ends with both the token record and the auth state removed. -/
theorem C3_witness :
    getValidAccessToken ⟨some ⟨"tok", some "r", 0, "repo"⟩, some "nonce", some "id", some "sec"⟩
        0 (.apiError "bad_verification_code" (some "boom"))
      = ⟨.error "Token expired and refresh failed. Please re-authenticate.",
         ⟨none, none, some "id", some "sec"⟩, 1⟩ :=
  C3_refresh_failure_clears_auth
    ⟨some ⟨"tok", some "r", 0, "repo"⟩, some "nonce", some "id", some "sec"⟩ 0
    (.apiError "bad_verification_code" (some "boom"))
    ⟨"tok", some "r", 0, "repo"⟩ "Token refresh error: boom"
    ⟨some ⟨"tok", some "r", 0, "repo"⟩, some "nonce", some "id", some "sec"⟩
    rfl (by decide) rfl

/-! ## C4 -/

lemma getClientId_ne (store : AuthStore) : getClientId store ≠ "" := by
  unfold getClientId
  cases store.clientId with
  | none => decide
  | some c =>
    show (if c ≠ "" then c else "SET_ME_UP") ≠ ""
    by_cases hc : c = ""
    · simp [hc]
    · simp [hc]

/-- C4: in the `authenticate` flow, when no provider error is present and
a code was returned, a returned nonce differing from the stored nonce
aborts with the CSRF-failure error and deletes the transient state; a
mismatched nonce never stores a token record on any path; and on every
termination of the flow the transient auth state is deleted. -/
theorem C4_csrf_abort_and_nonce_deletion (store : AuthStore) (s : String)
    (exch : Except String TokenData) (now : Int) :
    (∀ code retState err, jsTruthy err = false → jsTruthy code = true →
      retState ≠ some s →
      authenticate store s (.redirect code retState err) exch now =
        (.error "State mismatch - possible CSRF attack",
         { store with authState := none })) ∧
    (∀ code retState err, retState ≠ some s →
      ((authenticate store s (.redirect code retState err) exch now).2).tokens
        = store.tokens) ∧
    (∀ flow, ((authenticate store s flow exch now).2).authState = none) := by
  refine ⟨?_, ?_, ?_⟩
  · intro code retState err he hc hs
    simp [authenticate, getClientId_ne store, he, hc, hs]
  · intro code retState err hs
    cases he : jsTruthy err <;> cases hc : jsTruthy code <;>
      simp [authenticate, getClientId_ne store, he, hc, hs]
  · intro flow
    cases flow with
    | rejected msg => simp [authenticate, getClientId_ne store]
    | redirect code retState err =>
      simp only [authenticate]
      rw [if_neg (getClientId_ne store)]
      split
      · rfl
      · split
        · rfl
        · split
          · rfl
          · split <;> rfl

/-- C4 witness: a concrete flow returning a foreign nonce aborts with the
CSRF error, stores no token, and deletes the stale transient state. -/
theorem C4_witness :
    authenticate ⟨none, some "stale", some "id", some "sec"⟩ "sss"
        (.redirect (some "c") (some "zzz") none) (.ok ⟨"a", none, 1, "repo"⟩) 0
      = (.error "State mismatch - possible CSRF attack",
         ⟨none, none, some "id", some "sec"⟩) :=
  (C4_csrf_abort_and_nonce_deletion ⟨none, some "stale", some "id", some "sec"⟩ "sss"
      (.ok ⟨"a", none, 1, "repo"⟩) 0).1
    (some "c") (some "zzz") none rfl (by decide) (by decide)

/-! ## C10 -/

/-- C10: `isAuthenticated` is true exactly when a stored record's
remaining lifetime strictly exceeds the 5-minute threshold, which is
exactly when `getValidAccessToken` returns the stored access token with
no refresh attempt and no state change. -/
theorem C10_isAuthenticated_characterization (store : AuthStore) (now : Int)
    (oracle : RefreshOutcome) :
    (isAuthenticated store now = true ↔
      ∃ t, store.tokens = some t ∧ TOKEN_REFRESH_THRESHOLD < t.expiresAt - now) ∧
    (isAuthenticated store now = true ↔
      ∃ t, store.tokens = some t ∧
        getValidAccessToken store now oracle = ⟨.ok t.accessToken, store, 0⟩) := by
  have hfst : isAuthenticated store now = true ↔
      ∃ t, store.tokens = some t ∧ TOKEN_REFRESH_THRESHOLD < t.expiresAt - now := by
    cases htok : store.tokens with
    | none => simp [isAuthenticated, htok]
    | some t => simp [isAuthenticated, htok]
  refine ⟨hfst, ?_⟩
  constructor
  · intro h
    obtain ⟨t, htok, hgt⟩ := hfst.mp h
    refine ⟨t, htok, ?_⟩
    simp only [getValidAccessToken, htok]
    rw [if_neg (not_le.mpr hgt)]
  · rintro ⟨t, htok, hg⟩
    by_cases hle : t.expiresAt - now ≤ TOKEN_REFRESH_THRESHOLD
    · exfalso
      have hattempts := congrArg GVATResult.refreshAttempts hg
      simp only [getValidAccessToken, htok] at hattempts
      rw [if_pos hle] at hattempts
      rcases hres : refreshAccessToken store now oracle with ⟨res, st1⟩
      rw [hres] at hattempts
      cases res <;> simp at hattempts
    · exact hfst.mpr ⟨t, htok, not_le.mp hle⟩

/-- C10 witness: a store holding a token far from expiry is reported
authenticated via the characterization. -/
theorem C10_witness :
    isAuthenticated ⟨some ⟨"tok", none, 1000000000, "repo"⟩, none, none, none⟩ 0 = true :=
  ((C10_isAuthenticated_characterization
      ⟨some ⟨"tok", none, 1000000000, "repo"⟩, none, none, none⟩ 0
      (.httpError 500 "e")).1).mpr
    ⟨⟨"tok", none, 1000000000, "repo"⟩, rfl, by decide⟩

/-! ## C5 -/

/-- C5: for a push with a valid `owner/repo` target, when a prior file
exists at the computed path (with its non-empty SHA) the PUT body carries
that SHA and the reported action is `update`; when no prior file exists
the body carries no SHA and the action is `add`. -/
theorem C5_push_sha_and_action (repository branch projectName : String)
    (zipContent : List Nat) (commitMessage : String) (settingsPath : Option String)
    (timestamp : String)
    (howner : ((jsSplitChar repository '/')[0]?).getD "" ≠ "")
    (hrepo : ((jsSplitChar repository '/')[1]?).getD "" ≠ "") :
    (∀ f : FileRec, f.sha ≠ "" →
      (pushSpikeProject repository branch projectName zipContent commitMessage
          settingsPath timestamp true (some f)).toOption.map
          (fun r => (r.body.sha, r.action))
        = some (some f.sha, "update")) ∧
    ((pushSpikeProject repository branch projectName zipContent commitMessage
        settingsPath timestamp true none).toOption.map
        (fun r => (r.body.sha, r.action))
      = some (none, "add")) := by
  refine ⟨?_, ?_⟩
  · intro f hf
    have hts : jsTruthy (some f.sha) = true := by simp [jsTruthy, hf]
    have hlow : jsToLower "Update" = "update" := rfl
    simp [pushSpikeProject, pushFile, howner, hrepo, hts, hlow]
    exact ⟨_, rfl, rfl, rfl⟩
  · have hlow : jsToLower "Add" = "add" := rfl
    simp [pushSpikeProject, pushFile, jsTruthy, howner, hrepo, hlow]
    exact ⟨_, rfl, rfl, rfl⟩

/-- C5 witness: a concrete push over a prior file with SHA `abc123`
sends that SHA and reports `update`. -/
theorem C5_witness :
    (pushSpikeProject "alice/robots" "main" "My Robot" [0x50, 0x4B] "sync" none
        "2026-01-01T00:00:00Z" true (some ⟨"abc123"⟩)).toOption.map
        (fun r => (r.body.sha, r.action))
      = some (some "abc123", "update") :=
  (C5_push_sha_and_action "alice/robots" "main" "My Robot" [0x50, 0x4B] "sync" none
      "2026-01-01T00:00:00Z" (by decide) (by decide)).1 ⟨"abc123"⟩ (by decide)

/-! ## C8 -/

/-- C8: after every store the history holds at most 50 records with the
new record first; storing onto a full log of 50 drops the oldest (last)
record; and the newest-first ordering is preserved whenever the incoming
record is at least as recent as everything stored. -/
theorem C8_history_cap (r : SyncRecord) (h : List SyncRecord) :
    (storeSyncHistory r h).length ≤ 50 ∧
    (storeSyncHistory r h).head? = some r ∧
    (h.length = 50 → storeSyncHistory r h = r :: h.dropLast) ∧
    (newestFirst h → (∀ x ∈ h, x.timestamp ≤ r.timestamp) →
      newestFirst (storeSyncHistory r h)) := by
  refine ⟨?_, ?_, ?_, ?_⟩
  · rw [storeSyncHistory, List.length_take]
    exact min_le_left _ _
  · rw [storeSyncHistory, show (50 : Nat) = 49 + 1 from rfl, List.take_succ_cons]
    rfl
  · intro hlen
    rw [storeSyncHistory, show (50 : Nat) = 49 + 1 from rfl, List.take_succ_cons]
    congr 1
    rw [List.dropLast_eq_take, hlen]
  · intro hchain hle
    rw [storeSyncHistory]
    apply List.Chain'.take
    rw [List.chain'_cons']
    refine ⟨?_, hchain⟩
    intro b hb
    exact hle b (List.mem_of_mem_head? hb)

/-- C8 witness: storing a newer record onto a singleton history keeps
the log ordered newest first. -/
theorem C8_witness :
    newestFirst (storeSyncHistory ⟨10, "p", "o/r", "main", "projects/p.llsp3", "c1", true⟩
      [⟨5, "q", "o/r", "main", "projects/q.llsp3", "c0", true⟩]) :=
  (C8_history_cap ⟨10, "p", "o/r", "main", "projects/p.llsp3", "c1", true⟩
      [⟨5, "q", "o/r", "main", "projects/q.llsp3", "c0", true⟩]).2.2.2
    (by simp [newestFirst])
    (by intro x hx; simp at hx; subst hx; norm_num)

/-! ## C9 -/

/-- C9: a 403 response with a zero remaining-quota header makes
`githubRequest` throw the distinguished rate-limit message, which
contains the human-readable reset time derived from the reset header;
any other 403 (non-zero quota) falls through to the generic non-2xx
message instead. -/
theorem C9_rate_limit_message (r : HttpResponse) (endpoint : String)
    (method : Option String) (fmt : Int → String)
    (hs : r.status = 403) (hq : r.rateLimitRemaining = some "0") :
    githubRequest r endpoint method fmt = .error (rateLimitMessage r fmt) ∧
    strContains (rateLimitMessage r fmt) (fmt (jsNumber r.rateLimitReset * 1000)) = true ∧
    (∀ r' : HttpResponse, r'.status = 403 → r'.rateLimitRemaining ≠ some "0" →
      githubRequest r' endpoint method fmt
        = .error (genericErrorMessage r' endpoint method)) := by
  refine ⟨?_, ?_, ?_⟩
  · simp [githubRequest, hs, hq]
  · exact strContains_append _ _
  · intro r' hs' hq'
    have hok : respOk r' = false := by simp [respOk, hs']
    simp [githubRequest, hs', hq', hok]

/-- C9 witness: a concrete rate-limited response raises the
distinguished message built from the reset header. -/
theorem C9_witness :
    githubRequest ⟨403, some "0", some "1700000000", none, "Forbidden"⟩ "/user" none
        (fun i => toString i)
      = .error (rateLimitMessage ⟨403, some "0", some "1700000000", none, "Forbidden"⟩
          (fun i => toString i)) :=
  (C9_rate_limit_message ⟨403, some "0", some "1700000000", none, "Forbidden"⟩ "/user"
      none (fun i => toString i) rfl rfl).1
